import Mathlib

/-!
Verification of the pixel-wise lifted-multicut objective and the
connected-components fusion engine
(`nifty::graph::opt::lifted_multicut::PixelWiseLmcObjective` and
`PixelWiseLmcConnetedComponentsFusion`, 2D and 3D specializations).

The grid data is embedded functionally: a D-dimensional label array of
shape `s0 × s1 (× s2)` becomes a total function on coordinates, the
weight tensor a function `coords → offset index → ℚ` (the C++ `float`
weights are modelled as rationals), and the K×D offset matrix a function
from offset index to an integer vector.  Loops become sums or folds over
the corresponding row-major index lists, so the iteration order of the
source is preserved.

The disjoint-set engine (`nifty/ufd/ufd.hxx`), the `UndirectedGraph` and
the `LiftedMulticutObjective` class used by the fusion engine are not
among the provided sources; they are modelled from the spec's contracts
(§4.1 disjoint-set contract, §3 contracted-graph weight accumulation).
The external multicut solver is a caller-supplied parameter in both the
code and this model.
-/

namespace PixelWiseLmc

/-! ### Disjoint-set engine -/

/-- Modelled from the spec: the disjoint-set engine used by the fusion code
(`nifty/ufd/ufd.hxx`) is not among the provided sources (only the unused
`boost_ufd.hxx` is).  Per the spec contract §4.1 the observable state is the
current root assignment over `[0, n)`: `reset` restores `n` singletons,
`merge` unions the two classes containing its arguments (which class root
survives is an internal choice the contract leaves open), and `find` returns
the current root of its argument. -/
structure Ufd where
  n : Nat
  find : Nat → Nat

def Ufd.reset (n : Nat) : Ufd := ⟨n, fun x => x⟩

def Ufd.merge (u : Ufd) (x y : Nat) : Ufd :=
  if u.find x = u.find y then u
  else ⟨u.n, fun z => if u.find z = u.find y then u.find x else u.find z⟩

/-- First-occurrence deduplication, used to enumerate the live roots. -/
def uniqueHead : List Nat → List Nat
  | [] => []
  | a :: l => a :: ((uniqueHead l).filter (fun x => x ≠ a))

/-- Index of the first occurrence of `r` in a list (0 if absent). -/
def idxOf (r : Nat) : List Nat → Nat
  | [] => 0
  | a :: l => if a = r then 0 else idxOf r l + 1

/-- The live roots, in order of first appearance over the element range. -/
def Ufd.rootList (u : Ufd) : List Nat := uniqueHead ((List.range u.n).map u.find)

def Ufd.numberOfSets (u : Ufd) : Nat := u.rootList.length

/-- Modelled from the spec: `representativeLabeling()` maps each live root to a
dense id in `[0, numberOfSets)`; the assignment order is unspecified by the
contract, so the model assigns ids by first appearance. -/
def Ufd.dense (u : Ufd) (r : Nat) : Nat := idxOf r u.rootList

/-! ### Objectives (data model of `PixelWiseLmcObjective<2>` / `<3>`) -/

structure Obj2 where
  s0 : Nat
  s1 : Nat
  nOff : Nat
  off : Nat → Int × Int
  w : Nat → Nat → Nat → ℚ

structure Obj3 where
  s0 : Nat
  s1 : Nat
  s2 : Nat
  nOff : Nat
  off : Nat → Int × Int × Int
  w : Nat → Nat → Nat → Nat → ℚ

/-- Row-major node id of a 2D grid position, `p0*shape[1] + p1`. -/
def node2 (s1 p0 p1 : Nat) : Nat := p0 * s1 + p1

/-- Row-major node id of a 3D grid position, `(p0*shape[1] + p1)*shape[2] + p2`. -/
def node3 (s1 s2 p0 p1 p2 : Nat) : Nat := (p0 * s1 + p1) * s2 + p2

/-- The row-major loop nest `for p0, for p1, for offset_index` as an index list. -/
def triples2 (s0 s1 K : Nat) : List (Nat × Nat × Nat) :=
  (List.range s0).flatMap (fun p0 =>
    (List.range s1).flatMap (fun p1 =>
      (List.range K).map (fun k => (p0, p1, k))))

/-- The row-major loop nest `for p0, for p1, for p2, for offset_index`. -/
def quads3 (s0 s1 s2 K : Nat) : List (Nat × Nat × Nat × Nat) :=
  (List.range s0).flatMap (fun p0 =>
    (List.range s1).flatMap (fun p1 =>
      (List.range s2).flatMap (fun p2 =>
        (List.range K).map (fun k => (p0, p1, p2, k)))))

/-- The bounds check `q0 >= 0 && q0 < shape[0] && q1 >= 0 && q1 < shape[1]` on
the offset neighbour `q = p + offset_k` of a 2D position. -/
def inb2 (o : Obj2) (p0 p1 k : Nat) : Prop :=
  0 ≤ (p0 : Int) + (o.off k).1 ∧ (p0 : Int) + (o.off k).1 < (o.s0 : Int) ∧
  0 ≤ (p1 : Int) + (o.off k).2 ∧ (p1 : Int) + (o.off k).2 < (o.s1 : Int)

instance (o : Obj2) (p0 p1 k : Nat) : Decidable (inb2 o p0 p1 k) :=
  inferInstanceAs (Decidable
    (0 ≤ (p0 : Int) + (o.off k).1 ∧ (p0 : Int) + (o.off k).1 < (o.s0 : Int) ∧
     0 ≤ (p1 : Int) + (o.off k).2 ∧ (p1 : Int) + (o.off k).2 < (o.s1 : Int)))

/-- First coordinate of the offset neighbour, as the array index used after the
bounds check. -/
def qn0 (o : Obj2) (p0 k : Nat) : Nat := ((p0 : Int) + (o.off k).1).toNat

def qn1 (o : Obj2) (p1 k : Nat) : Nat := ((p1 : Int) + (o.off k).2).toNat

/-- One summand of `detail_plmc::EvalHelper<2>::evaluate`: look up the offset
neighbour `q = p + offset_k`; skip it when out of bounds, otherwise charge
`weights(p0,p1,k)` exactly when the labels differ. -/
def evalTerm2 (o : Obj2) (L : Nat → Nat → Nat) (p0 p1 k : Nat) : ℚ :=
  if inb2 o p0 p1 k then
    if L p0 p1 ≠ L (qn0 o p0 k) (qn1 o p1 k) then o.w p0 p1 k else 0
  else 0

/-- `detail_plmc::EvalHelper<2>::evaluate` (part_002 lines 31-63). -/
def evaluate2 (o : Obj2) (L : Nat → Nat → Nat) : ℚ :=
  ((triples2 o.s0 o.s1 o.nOff).map (fun t => evalTerm2 o L t.1 t.2.1 t.2.2)).sum

/-- The 3D bounds check on the offset neighbour `q = p + offset_k`. -/
def inb3 (o : Obj3) (p0 p1 p2 k : Nat) : Prop :=
  0 ≤ (p0 : Int) + (o.off k).1 ∧ (p0 : Int) + (o.off k).1 < (o.s0 : Int) ∧
  0 ≤ (p1 : Int) + (o.off k).2.1 ∧ (p1 : Int) + (o.off k).2.1 < (o.s1 : Int) ∧
  0 ≤ (p2 : Int) + (o.off k).2.2 ∧ (p2 : Int) + (o.off k).2.2 < (o.s2 : Int)

instance (o : Obj3) (p0 p1 p2 k : Nat) : Decidable (inb3 o p0 p1 p2 k) :=
  inferInstanceAs (Decidable
    (0 ≤ (p0 : Int) + (o.off k).1 ∧ (p0 : Int) + (o.off k).1 < (o.s0 : Int) ∧
     0 ≤ (p1 : Int) + (o.off k).2.1 ∧ (p1 : Int) + (o.off k).2.1 < (o.s1 : Int) ∧
     0 ≤ (p2 : Int) + (o.off k).2.2 ∧ (p2 : Int) + (o.off k).2.2 < (o.s2 : Int)))

def qm0 (o : Obj3) (p0 k : Nat) : Nat := ((p0 : Int) + (o.off k).1).toNat

def qm1 (o : Obj3) (p1 k : Nat) : Nat := ((p1 : Int) + (o.off k).2.1).toNat

def qm2 (o : Obj3) (p2 k : Nat) : Nat := ((p2 : Int) + (o.off k).2.2).toNat

/-- One summand of `detail_plmc::EvalHelper<3>::evaluate`. -/
def evalTerm3 (o : Obj3) (L : Nat → Nat → Nat → Nat) (p0 p1 p2 k : Nat) : ℚ :=
  if inb3 o p0 p1 p2 k then
    if L p0 p1 p2 ≠ L (qm0 o p0 k) (qm1 o p1 k) (qm2 o p2 k) then o.w p0 p1 p2 k else 0
  else 0

/-- `detail_plmc::EvalHelper<3>::evaluate` (part_002 lines 65-102). -/
def evaluate3 (o : Obj3) (L : Nat → Nat → Nat → Nat) : ℚ :=
  ((quads3 o.s0 o.s1 o.s2 o.nOff).map (fun t =>
    evalTerm3 o L t.1 t.2.1 t.2.2.1 t.2.2.2)).sum

/-! ### Boundary / ground-truth utility -/

/-- `pixel_wise_lmc_edge_gt_2d` (part_002 lines 185-219).  The C++ allocates the
result tensor without initializing it and only writes the entries whose
neighbour is in bounds; the indeterminate initial contents of the allocation
are modelled by the argument `uninit`. -/
def pixel_wise_lmc_edge_gt_2d (s0 s1 : Nat) (gt : Nat → Nat → Nat) (nOff : Nat)
    (off : Nat → Int × Int) (uninit : Nat → Nat → Nat → Bool) :
    Nat → Nat → Nat → Bool :=
  fun p0 p1 k =>
    let q0 : Int := (p0 : Int) + (off k).1
    let q1 : Int := (p1 : Int) + (off k).2
    if p0 < s0 ∧ p1 < s1 ∧ k < nOff ∧
        0 ≤ q0 ∧ q0 < (s0 : Int) ∧ 0 ≤ q1 ∧ q1 < (s1 : Int) then
      decide (gt p0 p1 ≠ gt q0.toNat q1.toNat)
    else uninit p0 p1 k

/-! ### `PixelWiseLmcObjective::optimize` and the solver lifecycle -/

/-- `detail_plmc::FillObjHelper<2>::fill` (part_002 lines 108-138): the sparse
cost entries `setCost(node_p, node_q, weights(p0,p1,k))` for every in-bounds
offset pair, in traversal order.  Each entry records the endpoint node ids and
the weight-tensor index that was charged. -/
def fillObj2 (o : Obj2) : List ((Nat × Nat) × (Nat × Nat × Nat)) :=
  (triples2 o.s0 o.s1 o.nOff).filterMap (fun t =>
    if inb2 o t.1 t.2.1 t.2.2 then
      some ((node2 o.s1 t.1 t.2.1,
             node2 o.s1 (qn0 o t.1 t.2.2) (qn1 o t.2.1 t.2.2)), t)
    else none)

/-- `PixelWiseLmcObjective<2>::optimize` (part_002 lines 284-333), with the
solver lifecycle made explicit.  The caller-supplied factory and the solver's
in-place `optimize` are modelled together as `factoryRun`, which may fail
(C++ exception, embedded as `Except.error`).  The returned counters are
(number of solvers created, number of solvers deleted): the source executes
`delete solver` only after a successful `solver->optimize`, so the error path
returns without deleting, exactly as the raw `delete` after a throwing call
is skipped. -/
def optimize2 (o : Obj2)
    (factoryRun : List ((Nat × Nat) × (Nat × Nat × Nat)) → (Nat → Nat) →
      Except Unit (Nat → Nat))
    (L : Nat → Nat → Nat) : Except Unit (Nat → Nat → Nat) × Nat × Nat :=
  let costs := fillObj2 o
  let initNodes : Nat → Nat := fun v => L (v / o.s1) (v % o.s1)
  match factoryRun costs initNodes with
  | Except.error e => (Except.error e, 1, 0)
  | Except.ok nl => (Except.ok (fun p0 p1 => nl (node2 o.s1 p0 p1)), 1, 1)

/-! ### Fusion engine: agreement merge -/

/-- Row-major position list of a 2D grid. -/
def positions2 (s0 s1 : Nat) : List (Nat × Nat) :=
  (List.range s0).flatMap (fun p0 => (List.range s1).map (fun p1 => (p0, p1)))

/-- Row-major position list of a 3D grid. -/
def positions3 (s0 s1 s2 : Nat) : List (Nat × Nat × Nat) :=
  (List.range s0).flatMap (fun p0 =>
    (List.range s1).flatMap (fun p1 =>
      (List.range s2).map (fun p2 => (p0, p1, p2))))

/-- Body of `PixelWiseLmcConnetedComponentsFusion<2>::merge_ufd` (part_002
lines 513-547) for one grid position: merge with the axis-0 neighbour
(`node_q = node_p + shape[1]`) when both candidates agree across it, then with
the axis-1 neighbour (`node_q = node_p + 1`). -/
def mergeStep2 (s0 s1 : Nat) (A B : Nat → Nat → Nat) (u : Ufd) (p : Nat × Nat) : Ufd :=
  let u1 :=
    if p.1 + 1 < s0 ∧ A p.1 p.2 = A (p.1 + 1) p.2 ∧ B p.1 p.2 = B (p.1 + 1) p.2 then
      u.merge (node2 s1 p.1 p.2) (node2 s1 p.1 p.2 + s1)
    else u
  if p.2 + 1 < s1 ∧ A p.1 p.2 = A p.1 (p.2 + 1) ∧ B p.1 p.2 = B p.1 (p.2 + 1) then
    u1.merge (node2 s1 p.1 p.2) (node2 s1 p.1 p.2 + 1)
  else u1

def merge_ufd_2 (s0 s1 : Nat) (A B : Nat → Nat → Nat) (u : Ufd) : Ufd :=
  (positions2 s0 s1).foldl (mergeStep2 s0 s1 A B) u

/-- Body of `PixelWiseLmcConnetedComponentsFusion<2>::merge_ufd2` (part_002
lines 552-598) for one position: merge with an axis neighbour when all `P`
stacked candidates agree across it. -/
def mergeStep2K (s0 s1 P : Nat) (S : Nat → Nat → Nat → Nat) (u : Ufd) (p : Nat × Nat) :
    Ufd :=
  let u1 :=
    if p.1 + 1 < s0 ∧ (∀ i < P, S p.1 p.2 i = S (p.1 + 1) p.2 i) then
      u.merge (node2 s1 p.1 p.2) (node2 s1 p.1 p.2 + s1)
    else u
  if p.2 + 1 < s1 ∧ (∀ i < P, S p.1 p.2 i = S p.1 (p.2 + 1) i) then
    u1.merge (node2 s1 p.1 p.2) (node2 s1 p.1 p.2 + 1)
  else u1

def merge_ufd2_2 (s0 s1 P : Nat) (S : Nat → Nat → Nat → Nat) (u : Ufd) : Ufd :=
  (positions2 s0 s1).foldl (mergeStep2K s0 s1 P S) u

/-- Body of `PixelWiseLmcConnetedComponentsFusion<3>::merge_ufd` (part_002
lines 865-908): per position, axis-0 neighbour `node_p + shape[1]*shape[2]`,
axis-1 neighbour `node_p + shape[2]`, axis-2 neighbour `node_p + 1`, each
merged when both candidates agree across that neighbour pair. -/
def mergeStep3 (s0 s1 s2 : Nat) (A B : Nat → Nat → Nat → Nat) (u : Ufd)
    (p : Nat × Nat × Nat) : Ufd :=
  let np := node3 s1 s2 p.1 p.2.1 p.2.2
  let u1 :=
    if p.1 + 1 < s0 ∧ A p.1 p.2.1 p.2.2 = A (p.1 + 1) p.2.1 p.2.2 ∧
        B p.1 p.2.1 p.2.2 = B (p.1 + 1) p.2.1 p.2.2 then
      u.merge np (np + s1 * s2)
    else u
  let u2 :=
    if p.2.1 + 1 < s1 ∧ A p.1 p.2.1 p.2.2 = A p.1 (p.2.1 + 1) p.2.2 ∧
        B p.1 p.2.1 p.2.2 = B p.1 (p.2.1 + 1) p.2.2 then
      u1.merge np (np + s2)
    else u1
  if p.2.2 + 1 < s2 ∧ A p.1 p.2.1 p.2.2 = A p.1 p.2.1 (p.2.2 + 1) ∧
      B p.1 p.2.1 p.2.2 = B p.1 p.2.1 (p.2.2 + 1) then
    u2.merge np (np + 1)
  else u2

def merge_ufd_3 (s0 s1 s2 : Nat) (A B : Nat → Nat → Nat → Nat) (u : Ufd) : Ufd :=
  (positions3 s0 s1 s2).foldl (mergeStep3 s0 s1 s2 A B) u

/-- Body of `PixelWiseLmcConnetedComponentsFusion<3>::merge_ufd2` (part_002
lines 913-977), reproduced exactly as written: the axis-0 block (guard
`p0+1 < shape[0]`) compares the axis-0 neighbour's labels but merges
`node_q = node_p + shape[2]` (line 941); the axis-1 block (guard
`p1+1 < shape[1]`) compares the axis-1 neighbour's labels but merges
`node_q = node_p + 1` (line 956); and the axis-2 block (guard
`p2+1 < shape[2]`) again reads the labels at `(p0, p1+1, p2, o)`
(lines 963-964) and merges `node_q = node_p + 1` (line 971). -/
def mergeStep3K (s0 s1 s2 P : Nat) (S : Nat → Nat → Nat → Nat → Nat) (u : Ufd)
    (p : Nat × Nat × Nat) : Ufd :=
  let np := node3 s1 s2 p.1 p.2.1 p.2.2
  let u1 :=
    if p.1 + 1 < s0 ∧ (∀ i < P, S p.1 p.2.1 p.2.2 i = S (p.1 + 1) p.2.1 p.2.2 i) then
      u.merge np (np + s2)
    else u
  let u2 :=
    if p.2.1 + 1 < s1 ∧ (∀ i < P, S p.1 p.2.1 p.2.2 i = S p.1 (p.2.1 + 1) p.2.2 i) then
      u1.merge np (np + 1)
    else u1
  if p.2.2 + 1 < s2 ∧ (∀ i < P, S p.1 p.2.1 p.2.2 i = S p.1 (p.2.1 + 1) p.2.2 i) then
    u2.merge np (np + 1)
  else u2

def merge_ufd2_3 (s0 s1 s2 P : Nat) (S : Nat → Nat → Nat → Nat → Nat) (u : Ufd) : Ufd :=
  (positions3 s0 s1 s2).foldl (mergeStep3K s0 s1 s2 P S) u

/-! ### Fusion engine: contracted objective build -/

/-- One potential contracted-cost contribution of
`PixelWiseLmcConnetedComponentsFusion<2>::_build_` (part_002 lines 663-683):
for an in-bounds offset pair whose endpoints have different forest roots,
`setCost(to_dense[find(node_p)], to_dense[find(node_q)], weights(p0,p1,k))`.
The entry records the dense component pair and the charged weight index. -/
def ccEntry2 (o : Obj2) (u : Ufd) (p0 p1 k : Nat) :
    Option ((Nat × Nat) × (Nat × Nat × Nat)) :=
  if inb2 o p0 p1 k then
    if u.find (node2 o.s1 p0 p1) ≠ u.find (node2 o.s1 (qn0 o p0 k) (qn1 o p1 k)) then
      some ((u.dense (u.find (node2 o.s1 p0 p1)),
             u.dense (u.find (node2 o.s1 (qn0 o p0 k) (qn1 o p1 k)))), (p0, p1, k))
    else none
  else none

def ccEntries2 (o : Obj2) (u : Ufd) : List ((Nat × Nat) × (Nat × Nat × Nat)) :=
  (triples2 o.s0 o.s1 o.nOff).filterMap (fun t => ccEntry2 o u t.1 t.2.1 t.2.2)

/-- The lifted-cost fill loop of
`PixelWiseLmcConnetedComponentsFusion<3>::_build_` (part_002 lines 1047-1073),
reproduced exactly as written: the `p2` loop runs to `shape[1]` instead of
`shape[2]` (line 1049), and `node_p` is the sequential iteration counter of
that loop nest, i.e. `(p0*shape[1] + p1)*shape[1] + p2`. -/
def liftQuads3 (s0 s1 K : Nat) : List (Nat × Nat × Nat × Nat) :=
  (List.range s0).flatMap (fun p0 =>
    (List.range s1).flatMap (fun p1 =>
      (List.range s1).flatMap (fun p2 =>
        (List.range K).map (fun k => (p0, p1, p2, k)))))

def ccEntry3 (o : Obj3) (u : Ufd) (p0 p1 p2 k : Nat) :
    Option ((Nat × Nat) × (Nat × Nat × Nat × Nat)) :=
  if inb3 o p0 p1 p2 k then
    if u.find ((p0 * o.s1 + p1) * o.s1 + p2) ≠
        u.find (node3 o.s1 o.s2 (qm0 o p0 k) (qm1 o p1 k) (qm2 o p2 k)) then
      some ((u.dense (u.find ((p0 * o.s1 + p1) * o.s1 + p2)),
             u.dense (u.find (node3 o.s1 o.s2 (qm0 o p0 k) (qm1 o p1 k) (qm2 o p2 k)))),
            (p0, p1, p2, k))
    else none
  else none

def ccEntries3 (o : Obj3) (u : Ufd) : List ((Nat × Nat) × (Nat × Nat × Nat × Nat)) :=
  (liftQuads3 o.s0 o.s1 o.nOff).filterMap (fun t =>
    ccEntry3 o u t.1 t.2.1 t.2.2.1 t.2.2.2)

/-- Modelled from the spec: the energy a `LiftedMulticutObjective` (not among
the provided sources) assigns to a node labeling — each contracted edge
carries the accumulated weight of the grid edges that collapsed onto it, and
an edge is paid exactly when its two endpoint components receive different
labels.  Summing contribution-wise is equivalent to summing edge-wise, since
every contribution belongs to exactly one contracted edge and the differing
condition only depends on that edge's endpoints. -/
def evalNodeLabels2 (o : Obj2) (entries : List ((Nat × Nat) × (Nat × Nat × Nat)))
    (ccL : Nat → Nat) : ℚ :=
  (entries.map (fun e =>
    if ccL e.1.1 ≠ ccL e.1.2 then o.w e.2.1 e.2.2.1 e.2.2.2 else 0)).sum

def evalNodeLabels3 (o : Obj3) (entries : List ((Nat × Nat) × (Nat × Nat × Nat × Nat)))
    (ccL : Nat → Nat) : ℚ :=
  (entries.map (fun e =>
    if ccL e.1.1 ≠ ccL e.1.2 then o.w e.2.1 e.2.2.1 e.2.2.2.1 e.2.2.2.2 else 0)).sum

/-- Modelled from the spec: the accumulated lifted-edge weight between the two
dense components `a` and `b` — the sum of every `setCost` contribution whose
(unordered) endpoint pair is `{a, b}`. -/
def ccCost3 (o : Obj3) (entries : List ((Nat × Nat) × (Nat × Nat × Nat × Nat)))
    (a b : Nat) : ℚ :=
  ((entries.filter (fun e =>
      decide ((e.1.1 = a ∧ e.1.2 = b) ∨ (e.1.1 = b ∧ e.1.2 = a)))).map
    (fun e => o.w e.2.1 e.2.2.1 e.2.2.2.1 e.2.2.2.2)).sum

/-! ### Fusion engine: candidate scan and selection -/

/-- The candidate scan of the K-candidate `fuse` (part_002 lines 476-486 and
828-838): starting from `best_e = infinity, best_i = 0`, update on strict
improvement.  The accumulator after the never-failing first comparison is
threaded through the remaining energies. -/
def bestAux : List ℚ → ℚ → Nat → Nat → ℚ × Nat
  | [], b, bi, _ => (b, bi)
  | e :: rest, b, bi, idx =>
    if e < b then bestAux rest e idx (idx + 1) else bestAux rest b bi (idx + 1)

def bestPair : List ℚ → Option (ℚ × Nat)
  | [] => none
  | e :: rest => some (bestAux rest e 0 1)

/-- The contracted solution materialized back onto the dense grid: during
`_build_` the result array holds `to_dense[find(var)]` per position, and the
winning branch overwrites each cell by `cc_node_labels[dense_var]`.  The
solver that produced `ccL` is the external collaborator of §6: it receives the
contracted node count and cost entries from the caller-supplied factory. -/
def mapped2 (o : Obj2) (u : Ufd) (ccL : Nat → Nat) : Nat → Nat → Nat :=
  fun p0 p1 => ccL (u.dense (u.find (node2 o.s1 p0 p1)))

def mapped3 (o : Obj3) (u : Ufd) (ccL : Nat → Nat) : Nat → Nat → Nat → Nat :=
  fun p0 p1 p2 => ccL (u.dense (u.find (node3 o.s1 o.s2 p0 p1 p2)))

/-! ### `PixelWiseLmcConnetedComponentsFusion<2>::fuse`, two candidates -/

def fuse2_ufd (o : Obj2) (A B : Nat → Nat → Nat) : Ufd :=
  merge_ufd_2 o.s0 o.s1 A B (Ufd.reset (o.s0 * o.s1))

def fuse2_ccL (o : Obj2)
    (solver : Nat → List ((Nat × Nat) × (Nat × Nat × Nat)) → Nat → Nat)
    (A B : Nat → Nat → Nat) : Nat → Nat :=
  solver (fuse2_ufd o A B).numberOfSets (ccEntries2 o (fuse2_ufd o A B))

def fuse2_ccE (o : Obj2)
    (solver : Nat → List ((Nat × Nat) × (Nat × Nat × Nat)) → Nat → Nat)
    (A B : Nat → Nat → Nat) : ℚ :=
  evalNodeLabels2 o (ccEntries2 o (fuse2_ufd o A B)) (fuse2_ccL o solver A B)

/-- `PixelWiseLmcConnetedComponentsFusion<2>::fuse(a, b)` (part_002 lines
396-442): reset and agreement-merge the forest, build the contracted lifted
objective, run the caller-supplied solver on it, and materialize the
contracted solution only when its contracted energy is strictly below
`min(e_a, e_b)`; otherwise copy through the candidate with smaller energy
(candidate `b` on a tie, since the source tests `e_a < e_b`). -/
def fuse2 (o : Obj2)
    (solver : Nat → List ((Nat × Nat) × (Nat × Nat × Nat)) → Nat → Nat)
    (A B : Nat → Nat → Nat) : Nat → Nat → Nat :=
  if fuse2_ccE o solver A B < min (evaluate2 o A) (evaluate2 o B) then
    mapped2 o (fuse2_ufd o A B) (fuse2_ccL o solver A B)
  else if evaluate2 o A < evaluate2 o B then A
  else B

/-! ### `PixelWiseLmcConnetedComponentsFusion<2>::fuse`, K candidates -/

def stackAt2 (S : Nat → Nat → Nat → Nat) (i : Nat) : Nat → Nat → Nat :=
  fun p0 p1 => S p0 p1 i

def fuse2K_ufd (o : Obj2) (P : Nat) (S : Nat → Nat → Nat → Nat) : Ufd :=
  merge_ufd2_2 o.s0 o.s1 P S (Ufd.reset (o.s0 * o.s1))

def fuse2K_ccL (o : Obj2)
    (solver : Nat → List ((Nat × Nat) × (Nat × Nat × Nat)) → Nat → Nat)
    (P : Nat) (S : Nat → Nat → Nat → Nat) : Nat → Nat :=
  solver (fuse2K_ufd o P S).numberOfSets (ccEntries2 o (fuse2K_ufd o P S))

def fuse2K_ccE (o : Obj2)
    (solver : Nat → List ((Nat × Nat) × (Nat × Nat × Nat)) → Nat → Nat)
    (P : Nat) (S : Nat → Nat → Nat → Nat) : ℚ :=
  evalNodeLabels2 o (ccEntries2 o (fuse2K_ufd o P S)) (fuse2K_ccL o solver P S)

def fuse2K_es (o : Obj2) (P : Nat) (S : Nat → Nat → Nat → Nat) : List ℚ :=
  (List.range P).map (fun i => evaluate2 o (stackAt2 S i))

/-- `PixelWiseLmcConnetedComponentsFusion<2>::fuse(labels)` for a stack of
`P` candidates along the trailing axis (part_002 lines 445-508). -/
def fuse2K (o : Obj2)
    (solver : Nat → List ((Nat × Nat) × (Nat × Nat × Nat)) → Nat → Nat)
    (P : Nat) (S : Nat → Nat → Nat → Nat) : Nat → Nat → Nat :=
  match bestPair (fuse2K_es o P S) with
  | none => mapped2 o (fuse2K_ufd o P S) (fuse2K_ccL o solver P S)
  | some (bE, bI) =>
    if fuse2K_ccE o solver P S < bE then
      mapped2 o (fuse2K_ufd o P S) (fuse2K_ccL o solver P S)
    else stackAt2 S bI

/-! ### `PixelWiseLmcConnetedComponentsFusion<3>::fuse`, two candidates -/

def fuse3_ufd (o : Obj3) (A B : Nat → Nat → Nat → Nat) : Ufd :=
  merge_ufd_3 o.s0 o.s1 o.s2 A B (Ufd.reset (o.s0 * o.s1 * o.s2))

def fuse3_ccL (o : Obj3)
    (solver : Nat → List ((Nat × Nat) × (Nat × Nat × Nat × Nat)) → Nat → Nat)
    (A B : Nat → Nat → Nat → Nat) : Nat → Nat :=
  solver (fuse3_ufd o A B).numberOfSets (ccEntries3 o (fuse3_ufd o A B))

def fuse3_ccE (o : Obj3)
    (solver : Nat → List ((Nat × Nat) × (Nat × Nat × Nat × Nat)) → Nat → Nat)
    (A B : Nat → Nat → Nat → Nat) : ℚ :=
  evalNodeLabels3 o (ccEntries3 o (fuse3_ufd o A B)) (fuse3_ccL o solver A B)

/-- `PixelWiseLmcConnetedComponentsFusion<3>::fuse(a, b)` (part_002 lines
747-797), built on the 3D `merge_ufd` and the 3D `_build_` as written. -/
def fuse3 (o : Obj3)
    (solver : Nat → List ((Nat × Nat) × (Nat × Nat × Nat × Nat)) → Nat → Nat)
    (A B : Nat → Nat → Nat → Nat) : Nat → Nat → Nat → Nat :=
  if fuse3_ccE o solver A B < min (evaluate3 o A) (evaluate3 o B) then
    mapped3 o (fuse3_ufd o A B) (fuse3_ccL o solver A B)
  else if evaluate3 o A < evaluate3 o B then A
  else B

/-! ### `PixelWiseLmcConnetedComponentsFusion<3>::fuse`, K candidates -/

def stackAt3 (S : Nat → Nat → Nat → Nat → Nat) (i : Nat) : Nat → Nat → Nat → Nat :=
  fun p0 p1 p2 => S p0 p1 p2 i

def fuse3K_ufd (o : Obj3) (P : Nat) (S : Nat → Nat → Nat → Nat → Nat) : Ufd :=
  merge_ufd2_3 o.s0 o.s1 o.s2 P S (Ufd.reset (o.s0 * o.s1 * o.s2))

def fuse3K_ccL (o : Obj3)
    (solver : Nat → List ((Nat × Nat) × (Nat × Nat × Nat × Nat)) → Nat → Nat)
    (P : Nat) (S : Nat → Nat → Nat → Nat → Nat) : Nat → Nat :=
  solver (fuse3K_ufd o P S).numberOfSets (ccEntries3 o (fuse3K_ufd o P S))

def fuse3K_ccE (o : Obj3)
    (solver : Nat → List ((Nat × Nat) × (Nat × Nat × Nat × Nat)) → Nat → Nat)
    (P : Nat) (S : Nat → Nat → Nat → Nat → Nat) : ℚ :=
  evalNodeLabels3 o (ccEntries3 o (fuse3K_ufd o P S)) (fuse3K_ccL o solver P S)

def fuse3K_es (o : Obj3) (P : Nat) (S : Nat → Nat → Nat → Nat → Nat) : List ℚ :=
  (List.range P).map (fun i => evaluate3 o (stackAt3 S i))

/-- `PixelWiseLmcConnetedComponentsFusion<3>::fuse(labels)` for a stack of
`P` candidates along the trailing axis (part_002 lines 800-860). -/
def fuse3K (o : Obj3)
    (solver : Nat → List ((Nat × Nat) × (Nat × Nat × Nat × Nat)) → Nat → Nat)
    (P : Nat) (S : Nat → Nat → Nat → Nat → Nat) : Nat → Nat → Nat → Nat :=
  match bestPair (fuse3K_es o P S) with
  | none => mapped3 o (fuse3K_ufd o P S) (fuse3K_ccL o solver P S)
  | some (bE, bI) =>
    if fuse3K_ccE o solver P S < bE then
      mapped3 o (fuse3K_ufd o P S) (fuse3K_ccL o solver P S)
    else stackAt3 S bI

/-- The in-bounds offset pairs actually charged by `evaluate2`, as a filtered
index list; summing weights over it is `evaluate2`. -/
def cut2 (o : Obj2) (L : Nat → Nat → Nat) : List (Nat × Nat × Nat) :=
  (triples2 o.s0 o.s1 o.nOff).filter (fun t =>
    decide (inb2 o t.1 t.2.1 t.2.2 ∧
      L t.1 t.2.1 ≠ L (qn0 o t.1 t.2.2) (qn1 o t.2.1 t.2.2)))

def cut3 (o : Obj3) (L : Nat → Nat → Nat → Nat) : List (Nat × Nat × Nat × Nat) :=
  (quads3 o.s0 o.s1 o.s2 o.nOff).filter (fun t =>
    decide (inb3 o t.1 t.2.1 t.2.2.1 t.2.2.2 ∧
      L t.1 t.2.1 t.2.2.1 ≠
        L (qm0 o t.1 t.2.2.2) (qm1 o t.2.1 t.2.2.2) (qm2 o t.2.2.1 t.2.2.2)))

/-- Follows the spec's words (§3 "Contracted graph" and §4.3 step 4): the
in-bounds offset pairs whose endpoint components are exactly `{a, b}`, with
components read off the merged forest as dense ids of the row-major node of
each endpoint. -/
def specLiftCut3 (o : Obj3) (u : Ufd) (a b : Nat) : List (Nat × Nat × Nat × Nat) :=
  (quads3 o.s0 o.s1 o.s2 o.nOff).filter (fun t =>
    decide (inb3 o t.1 t.2.1 t.2.2.1 t.2.2.2 ∧
      ((u.dense (u.find (node3 o.s1 o.s2 t.1 t.2.1 t.2.2.1)) = a ∧
        u.dense (u.find (node3 o.s1 o.s2 (qm0 o t.1 t.2.2.2) (qm1 o t.2.1 t.2.2.2)
          (qm2 o t.2.2.1 t.2.2.2))) = b) ∨
       (u.dense (u.find (node3 o.s1 o.s2 t.1 t.2.1 t.2.2.1)) = b ∧
        u.dense (u.find (node3 o.s1 o.s2 (qm0 o t.1 t.2.2.2) (qm1 o t.2.1 t.2.2.2)
          (qm2 o t.2.2.1 t.2.2.2))) = a))))

/-- Follows the spec's words: the lifted-edge weight the contracted objective
should assign to the pair of distinct dense components `{a, b}` — the sum of
`weight(p,k)` over all in-bounds pairs `(p, offset_k)` whose endpoints fall in
those two components. -/
def specLiftedWeight3 (o : Obj3) (u : Ufd) (a b : Nat) : ℚ :=
  ((specLiftCut3 o u a b).map (fun t => o.w t.1 t.2.1 t.2.2.1 t.2.2.2)).sum

/-! ### Concrete instances used in the closed evaluations -/

/-- A 1×2 grid with the single offset (0,1) and unit weight. -/
def oW : Obj2 := ⟨1, 2, 1, fun _ => (0, 1), fun _ _ _ => 1⟩

/-- The labeling [0, 1] on a 1×2 grid. -/
def labA : Nat → Nat → Nat := fun _ p1 => p1

/-- The labeling [1, 0] on a 1×2 grid. -/
def labB10 : Nat → Nat → Nat := fun _ p1 => 1 - p1

/-- A 2D contracted solver that labels every component 0. -/
def sol2Zero : Nat → List ((Nat × Nat) × (Nat × Nat × Nat)) → Nat → Nat :=
  fun _ _ _ => 0

/-- A 2D contracted solver that keeps every component's own id. -/
def sol2Id : Nat → List ((Nat × Nat) × (Nat × Nat × Nat)) → Nat → Nat :=
  fun _ _ i => i

/-- A stack of two identical [0, 1] candidates on the 1×2 grid. -/
def sK2 : Nat → Nat → Nat → Nat := fun _ p1 _ => p1

/-- A stack of three candidates on the 1×2 grid: [0,1], [0,0], [0,0]. -/
def sW : Nat → Nat → Nat → Nat := fun _ p1 i => if i = 0 then p1 else 0

/-- A 1×1×2 grid with the single offset (0,0,1) and unit weight. -/
def oW3 : Obj3 := ⟨1, 1, 2, 1, fun _ => (0, 0, 1), fun _ _ _ _ => 1⟩

def labA3 : Nat → Nat → Nat → Nat := fun _ _ p2 => p2

def labB3 : Nat → Nat → Nat → Nat := fun _ _ p2 => 1 - p2

def sol3Zero : Nat → List ((Nat × Nat) × (Nat × Nat × Nat × Nat)) → Nat → Nat :=
  fun _ _ _ => 0

def sol3Id : Nat → List ((Nat × Nat) × (Nat × Nat × Nat × Nat)) → Nat → Nat :=
  fun _ _ i => i

/-- A stack of two identical [0, 1] candidates on the 1×1×2 grid. -/
def sK3 : Nat → Nat → Nat → Nat → Nat := fun _ _ p2 _ => p2

/-- A stack of two candidates on the 1×1×2 grid: [0,1] and [0,0]. -/
def sW3 : Nat → Nat → Nat → Nat → Nat := fun _ _ p2 i => if i = 0 then p2 else 0

/-- A 1×1×3 grid with offsets (0,0,1), (0,0,2); `weights(0,0,0,1) = 1`,
`weights(0,0,1,0) = 2`, all other weights 0.  With `shape[1] = 1` and
`shape[2] = 3`, the 3D `_build_` lifted fill visits only `p2 = 0`. -/
def oC1 : Obj3 := ⟨1, 1, 3, 2,
  fun k => if k = 0 then (0, 0, 1) else (0, 0, 2),
  fun _ _ p2 k => if p2 = 0 ∧ k = 1 then 1 else if p2 = 1 ∧ k = 0 then 2 else 0⟩

/-- The labeling [0, 1, 0] along the last axis of the 1×1×3 grid. -/
def labC1 : Nat → Nat → Nat → Nat := fun _ _ p2 => if p2 = 1 then 1 else 0

/-- A contracted solver that puts components 0 and 1 together and separates
component 2 — optimal for the misbuilt contracted objective of `oC1`. -/
def solC1 : Nat → List ((Nat × Nat) × (Nat × Nat × Nat × Nat)) → Nat → Nat :=
  fun _ _ i => if i = 2 then 1 else 0

/-- One candidate (K = 1) stacked on a 1×3×2 grid, with distinct labels
everywhere except the axis-2 neighbour pair (0,0,0)-(0,0,1), which agrees.
Values at the out-of-grid row `p1 = 3` (read by the misindexed axis-2 check
at `p1 = 2`) are 9. -/
def sC3 : Nat → Nat → Nat → Nat → Nat :=
  fun _ p1 p2 _ =>
    if p1 = 0 then 0
    else if p1 = 1 then (if p2 = 0 then 1 else 2)
    else if p1 = 2 then (if p2 = 0 then 3 else 4)
    else 9

/-- A 1×1×3 grid, one offset (0,0,1), weight 2 at `p2 = 1` and 0 elsewhere. -/
def oC4 : Obj3 := ⟨1, 1, 3, 1, fun _ => (0, 0, 1),
  fun _ _ p2 _ => if p2 = 1 then 2 else 0⟩

/-- The labeling [0, 1, 2]: three singleton components after the merge. -/
def labC4 : Nat → Nat → Nat → Nat := fun _ _ p2 => p2

/-- The forest state after the two-candidate 3D agreement merge on `labC4`. -/
def uC4 : Ufd := fuse3_ufd oC4 labC4 labC4

/-- A trivial 1×1 objective with no offsets, for the solver-lifecycle check. -/
def oC9 : Obj2 := ⟨1, 1, 0, fun _ => (0, 0), fun _ _ _ => 0⟩

/-! ### Generic list-sum helpers -/

theorem sum_map_congr {α : Type} (l : List α) (f g : α → ℚ)
    (h : ∀ x ∈ l, f x = g x) : (l.map f).sum = (l.map g).sum := by
  induction l with
  | nil => rfl
  | cons a t ih =>
    simp only [List.map_cons, List.sum_cons]
    rw [h a (by simp), ih (fun x hx => h x (by simp [hx]))]

theorem sum_map_flatMap {α β : Type} (l : List α) (F : α → List β) (g : β → ℚ) :
    ((l.flatMap F).map g).sum = (l.map (fun a => ((F a).map g).sum)).sum := by
  induction l with
  | nil => rfl
  | cons a t ih =>
    simp only [List.flatMap_cons, List.map_append, List.sum_append, List.map_cons,
      List.sum_cons, ih]

theorem sum_map_range (n : Nat) (g : Nat → ℚ) :
    ((List.range n).map g).sum = ∑ i ∈ Finset.range n, g i := by
  induction n with
  | zero => simp
  | succ k ih =>
    rw [List.range_succ, List.map_append, List.sum_append, Finset.sum_range_succ, ih]
    simp

theorem sum_map_filterMap {α β : Type} (l : List α) (F : α → Option β) (g : β → ℚ) :
    ((l.filterMap F).map g).sum = (l.map (fun x => ((F x).map g).getD 0)).sum := by
  induction l with
  | nil => rfl
  | cons a t ih =>
    cases hF : F a with
    | none => simp [List.filterMap_cons, hF, ih]
    | some b => simp [List.filterMap_cons, hF, ih]

theorem sum_map_ite_filter {α : Type} (l : List α) (P : α → Prop) [DecidablePred P]
    (f : α → ℚ) :
    (l.map (fun x => if P x then f x else 0)).sum
      = ((l.filter (fun x => decide (P x))).map f).sum := by
  induction l with
  | nil => rfl
  | cons a t ih =>
    by_cases h : P a
    · simp [List.filter_cons, h, ih]
    · simp [List.filter_cons, h, ih]

/-! ### Basic lemmas about the embedding -/

theorem evaluate2_eq_cut (o : Obj2) (L : Nat → Nat → Nat) :
    evaluate2 o L = ((cut2 o L).map (fun t => o.w t.1 t.2.1 t.2.2)).sum := by
  rw [evaluate2, cut2, ← sum_map_ite_filter]
  apply sum_map_congr
  intro t _
  by_cases h1 : inb2 o t.1 t.2.1 t.2.2
  · by_cases h2 : L t.1 t.2.1 ≠ L (qn0 o t.1 t.2.2) (qn1 o t.2.1 t.2.2) <;>
      simp [evalTerm2, h1, h2]
  · simp [evalTerm2, h1]

theorem evaluate3_eq_cut (o : Obj3) (L : Nat → Nat → Nat → Nat) :
    evaluate3 o L = ((cut3 o L).map (fun t => o.w t.1 t.2.1 t.2.2.1 t.2.2.2)).sum := by
  rw [evaluate3, cut3, ← sum_map_ite_filter]
  apply sum_map_congr
  intro t _
  by_cases h1 : inb3 o t.1 t.2.1 t.2.2.1 t.2.2.2
  · by_cases h2 : L t.1 t.2.1 t.2.2.1 ≠
        L (qm0 o t.1 t.2.2.2) (qm1 o t.2.1 t.2.2.2) (qm2 o t.2.2.1 t.2.2.2) <;>
      simp [evalTerm3, h1, h2]
  · simp [evalTerm3, h1]

/-- Key bookkeeping identity: the dense energy of the materialized contracted
solution equals the contracted-objective energy of the solver's component
labeling.  Positions sharing a forest root share an output label (charging
nothing), and each cross-root in-bounds offset pair is charged in the dense
sum exactly when its contracted-cost contribution is paid. -/
theorem eval_mapped2 (o : Obj2) (u : Ufd) (ccL : Nat → Nat) :
    evaluate2 o (mapped2 o u ccL) = evalNodeLabels2 o (ccEntries2 o u) ccL := by
  rw [evaluate2, evalNodeLabels2, ccEntries2, sum_map_filterMap]
  apply sum_map_congr
  intro t _
  by_cases h1 : inb2 o t.1 t.2.1 t.2.2
  · by_cases h2 : u.find (node2 o.s1 t.1 t.2.1) =
        u.find (node2 o.s1 (qn0 o t.1 t.2.2) (qn1 o t.2.1 t.2.2))
    · simp [evalTerm2, ccEntry2, h1, h2, mapped2]
    · simp [evalTerm2, ccEntry2, h1, h2, mapped2]
  · simp [evalTerm2, ccEntry2, h1]

theorem mem_triples2 {s0 s1 K : Nat} {t : Nat × Nat × Nat} :
    t ∈ triples2 s0 s1 K ↔ t.1 < s0 ∧ t.2.1 < s1 ∧ t.2.2 < K := by
  obtain ⟨a, b, c⟩ := t
  constructor
  · intro h
    simp only [triples2, List.mem_flatMap, List.mem_map, List.mem_range] at h
    obtain ⟨p0, h0, p1, h1, k, hk, heq⟩ := h
    cases heq
    exact ⟨h0, h1, hk⟩
  · rintro ⟨h0, h1, hk⟩
    simp only [triples2, List.mem_flatMap, List.mem_map, List.mem_range]
    exact ⟨a, h0, b, h1, c, hk, rfl⟩

theorem mem_quads3 {s0 s1 s2 K : Nat} {t : Nat × Nat × Nat × Nat} :
    t ∈ quads3 s0 s1 s2 K ↔ t.1 < s0 ∧ t.2.1 < s1 ∧ t.2.2.1 < s2 ∧ t.2.2.2 < K := by
  obtain ⟨a, b, c, d⟩ := t
  constructor
  · intro h
    simp only [quads3, List.mem_flatMap, List.mem_map, List.mem_range] at h
    obtain ⟨p0, h0, p1, h1, p2, h2, k, hk, heq⟩ := h
    cases heq
    exact ⟨h0, h1, h2, hk⟩
  · rintro ⟨h0, h1, h2, hk⟩
    simp only [quads3, List.mem_flatMap, List.mem_map, List.mem_range]
    exact ⟨a, h0, b, h1, c, h2, d, hk, rfl⟩

theorem triples2_sum (s0 s1 K : Nat) (g : Nat × Nat × Nat → ℚ) :
    ((triples2 s0 s1 K).map g).sum
      = ∑ p0 ∈ Finset.range s0, ∑ p1 ∈ Finset.range s1, ∑ k ∈ Finset.range K,
          g (p0, p1, k) := by
  rw [triples2, sum_map_flatMap, sum_map_range]
  refine Finset.sum_congr rfl (fun p0 _ => ?_)
  rw [sum_map_flatMap, sum_map_range]
  refine Finset.sum_congr rfl (fun p1 _ => ?_)
  rw [List.map_map, sum_map_range]
  rfl

theorem quads3_sum (s0 s1 s2 K : Nat) (g : Nat × Nat × Nat × Nat → ℚ) :
    ((quads3 s0 s1 s2 K).map g).sum
      = ∑ p0 ∈ Finset.range s0, ∑ p1 ∈ Finset.range s1, ∑ p2 ∈ Finset.range s2,
          ∑ k ∈ Finset.range K, g (p0, p1, p2, k) := by
  rw [quads3, sum_map_flatMap, sum_map_range]
  refine Finset.sum_congr rfl (fun p0 _ => ?_)
  rw [sum_map_flatMap, sum_map_range]
  refine Finset.sum_congr rfl (fun p1 _ => ?_)
  rw [sum_map_flatMap, sum_map_range]
  refine Finset.sum_congr rfl (fun p2 _ => ?_)
  rw [List.map_map, sum_map_range]
  rfl

/-! ### The candidate scan: minimum and first-argmin -/

theorem bestAux_spec (l : List ℚ) : ∀ (b : ℚ) (bi idx : Nat),
    ((bestAux l b bi idx).1 ≤ b ∧ (∀ x ∈ l, (bestAux l b bi idx).1 ≤ x)) ∧
    (bestAux l b bi idx = (b, bi) ∨
      ∃ j, j < l.length ∧ l[j]? = some (bestAux l b bi idx).1 ∧
        (bestAux l b bi idx).2 = idx + j ∧ (bestAux l b bi idx).1 < b ∧
        ∀ j' < j, ∀ v, l[j']? = some v → (bestAux l b bi idx).1 < v) := by
  induction l with
  | nil =>
    intro b bi idx
    exact ⟨⟨le_refl b, by simp⟩, Or.inl rfl⟩
  | cons e rest ih =>
    intro b bi idx
    by_cases h : e < b
    · have hred : bestAux (e :: rest) b bi idx = bestAux rest e idx (idx + 1) := by
        rw [bestAux, if_pos h]
      obtain ⟨⟨hle, hall⟩, hat⟩ := ih e idx (idx + 1)
      rw [hred]
      refine ⟨⟨le_trans hle (le_of_lt h), ?_⟩, ?_⟩
      · intro x hx
        rcases List.mem_cons.mp hx with rfl | hx
        · exact hle
        · exact hall x hx
      · rcases hat with heq | ⟨j, hj, hget, hidx, hlt, hfirst⟩
        · refine Or.inr ⟨0, by simp, ?_, ?_, ?_, ?_⟩
          · rw [heq]; simp
          · rw [heq]; simp
          · rw [heq]; exact h
          · intro j' hj'; omega
        · refine Or.inr ⟨j + 1, by simpa using hj, ?_, by omega, lt_trans hlt h, ?_⟩
          · simpa using hget
          · intro j' hj' v hv
            cases j' with
            | zero =>
              have hev : e = v := by simpa using hv
              rw [← hev]; exact hlt
            | succ j'' =>
              exact hfirst j'' (by omega) v (by simpa using hv)
    · have hred : bestAux (e :: rest) b bi idx = bestAux rest b bi (idx + 1) := by
        rw [bestAux, if_neg h]
      obtain ⟨⟨hle, hall⟩, hat⟩ := ih b bi (idx + 1)
      rw [hred]
      refine ⟨⟨hle, ?_⟩, ?_⟩
      · intro x hx
        rcases List.mem_cons.mp hx with rfl | hx
        · exact le_trans hle (not_lt.mp h)
        · exact hall x hx
      · rcases hat with heq | ⟨j, hj, hget, hidx, hlt, hfirst⟩
        · exact Or.inl heq
        · refine Or.inr ⟨j + 1, by simpa using hj, by simpa using hget, by omega, hlt, ?_⟩
          intro j' hj' v hv
          cases j' with
          | zero =>
            have hev : e = v := by simpa using hv
            rw [← hev]; exact lt_of_lt_of_le hlt (not_lt.mp h)
          | succ j'' =>
            exact hfirst j'' (by omega) v (by simpa using hv)

theorem bestPair_spec (es : List ℚ) (m : ℚ) (bI : Nat) (h : bestPair es = some (m, bI)) :
    bI < es.length ∧ es[bI]? = some m ∧
    (∀ j < es.length, ∀ v, es[j]? = some v → m ≤ v) ∧
    (∀ j < bI, ∀ v, es[j]? = some v → m < v) := by
  cases es with
  | nil => simp [bestPair] at h
  | cons e rest =>
    have hb : bestAux rest e 0 1 = (m, bI) := by
      have := h
      rw [bestPair] at this
      exact Option.some_injective _ this
    obtain ⟨⟨hle, hall⟩, hat⟩ := bestAux_spec rest e 0 1
    rw [hb] at hle hall hat
    rcases hat with heq | ⟨j, hj, hget, hidx, hlt, hfirst⟩
    · have hm : m = e := congrArg Prod.fst heq
      have hbi : bI = 0 := congrArg Prod.snd heq
      refine ⟨by rw [hbi]; simp, by rw [hbi, hm]; simp, ?_, ?_⟩
      · intro j hjlen v hv
        cases j with
        | zero =>
          have hev : e = v := by simpa using hv
          rw [hm, hev]
        | succ j' =>
          have hmem : v ∈ rest := List.getElem?_mem (by simpa using hv)
          exact hall v hmem
      · intro j0 hj0 v hv
        rw [hbi] at hj0
        omega
    · refine ⟨by simp; omega, ?_, ?_, ?_⟩
      · have hbij : bI = j + 1 := by omega
        rw [hbij]
        simpa using hget
      · intro j0 hjlen v hv
        cases j0 with
        | zero =>
          have hev : e = v := by simpa using hv
          rw [← hev]; exact hle
        | succ j0' =>
          have hmem : v ∈ rest := List.getElem?_mem (by simpa using hv)
          exact hall v hmem
      · intro j0 hj0 v hv
        cases j0 with
        | zero =>
          have hev : e = v := by simpa using hv
          rw [← hev]; exact hlt
        | succ j0' =>
          exact hfirst j0' (by omega) v (by simpa using hv)

/-- Specialization of the scan facts to an energy list `(range P).map f`:
the scan returns the minimum energy together with the lowest index
attaining it. -/
theorem bestPair_range (P : Nat) (f : Nat → ℚ) (m : ℚ) (bI : Nat)
    (h : bestPair ((List.range P).map f) = some (m, bI)) :
    bI < P ∧ f bI = m ∧ (∀ j < P, m ≤ f j) ∧ (∀ j < bI, m < f j) := by
  obtain ⟨hlen, hget, hmin, hfirst⟩ := bestPair_spec _ _ _ h
  have hP : bI < P := by simpa using hlen
  have hgm : ((List.range P).map f)[bI]? = some (f bI) := by
    simp [List.getElem?_map, List.getElem?_range, hP]
  refine ⟨hP, ?_, ?_, ?_⟩
  · rw [hgm] at hget
    exact Option.some_injective _ hget
  · intro j hj
    exact hmin j (by simpa using hj) (f j)
      (by simp [List.getElem?_map, List.getElem?_range, hj])
  · intro j hj
    exact hfirst j hj (f j)
      (by simp [List.getElem?_map, List.getElem?_range, lt_trans hj hP])

/-! ### Closed evaluations on the concrete instances -/

theorem eval_oW_labA : evaluate2 oW labA = 1 := by
  rw [evaluate2_eq_cut, (by decide : cut2 oW labA = [(0, 0, 0)])]
  norm_num [oW]

theorem eval_oW_labB10 : evaluate2 oW labB10 = 1 := by
  rw [evaluate2_eq_cut, (by decide : cut2 oW labB10 = [(0, 0, 0)])]
  norm_num [oW]

theorem eval_oW3_labA3 : evaluate3 oW3 labA3 = 1 := by
  rw [evaluate3_eq_cut, (by decide : cut3 oW3 labA3 = [(0, 0, 0, 0)])]
  norm_num [oW3]

theorem eval_oW3_labB3 : evaluate3 oW3 labB3 = 1 := by
  rw [evaluate3_eq_cut, (by decide : cut3 oW3 labB3 = [(0, 0, 0, 0)])]
  norm_num [oW3]

theorem ccE_oW_zero_AA : fuse2_ccE oW sol2Zero labA labA = 0 := by
  unfold fuse2_ccE
  rw [(by decide : ccEntries2 oW (fuse2_ufd oW labA labA) = [((0, 1), (0, 0, 0))])]
  norm_num [evalNodeLabels2, fuse2_ccL, sol2Zero]

theorem ccE_oW_id_AA : fuse2_ccE oW sol2Id labA labA = 1 := by
  unfold fuse2_ccE
  rw [(by decide : ccEntries2 oW (fuse2_ufd oW labA labA) = [((0, 1), (0, 0, 0))])]
  norm_num [evalNodeLabels2, fuse2_ccL, sol2Id, oW]

theorem ccE_oW_id_AB10 : fuse2_ccE oW sol2Id labA labB10 = 1 := by
  unfold fuse2_ccE
  rw [(by decide : ccEntries2 oW (fuse2_ufd oW labA labB10) = [((0, 1), (0, 0, 0))])]
  norm_num [evalNodeLabels2, fuse2_ccL, sol2Id, oW]

theorem ccE_oW3_zero_AA : fuse3_ccE oW3 sol3Zero labA3 labA3 = 0 := by
  unfold fuse3_ccE
  rw [(by decide : ccEntries3 oW3 (fuse3_ufd oW3 labA3 labA3)
    = [((0, 1), (0, 0, 0, 0))])]
  norm_num [evalNodeLabels3, fuse3_ccL, sol3Zero]

theorem ccE_oW3_id_AB3 : fuse3_ccE oW3 sol3Id labA3 labB3 = 1 := by
  unfold fuse3_ccE
  rw [(by decide : ccEntries3 oW3 (fuse3_ufd oW3 labA3 labB3)
    = [((0, 1), (0, 0, 0, 0))])]
  norm_num [evalNodeLabels3, fuse3_ccL, sol3Id, oW3]

theorem ccE_oW_zero_K2 : fuse2K_ccE oW sol2Zero 2 sK2 = 0 := by
  unfold fuse2K_ccE
  rw [(by decide : ccEntries2 oW (fuse2K_ufd oW 2 sK2) = [((0, 1), (0, 0, 0))])]
  norm_num [evalNodeLabels2, fuse2K_ccL, sol2Zero]

theorem ccE_oW_id_K2 : fuse2K_ccE oW sol2Id 2 sK2 = 1 := by
  unfold fuse2K_ccE
  rw [(by decide : ccEntries2 oW (fuse2K_ufd oW 2 sK2) = [((0, 1), (0, 0, 0))])]
  norm_num [evalNodeLabels2, fuse2K_ccL, sol2Id, oW]

theorem ccE_oW_id_W : fuse2K_ccE oW sol2Id 3 sW = 1 := by
  unfold fuse2K_ccE
  rw [(by decide : ccEntries2 oW (fuse2K_ufd oW 3 sW) = [((0, 1), (0, 0, 0))])]
  norm_num [evalNodeLabels2, fuse2K_ccL, sol2Id, oW]

theorem ccE_oW3_zero_K3 : fuse3K_ccE oW3 sol3Zero 2 sK3 = 0 := by
  unfold fuse3K_ccE
  rw [(by decide : ccEntries3 oW3 (fuse3K_ufd oW3 2 sK3) = [])]
  norm_num [evalNodeLabels3]

theorem ccE_oW3_id_W3 : fuse3K_ccE oW3 sol3Id 2 sW3 = 0 := by
  unfold fuse3K_ccE
  rw [(by decide : ccEntries3 oW3 (fuse3K_ufd oW3 2 sW3) = [])]
  norm_num [evalNodeLabels3]

theorem es_oW_K2 : fuse2K_es oW 2 sK2 = [1, 1] := by
  unfold fuse2K_es
  rw [List.range_succ, List.range_succ, List.range_zero]
  simp only [List.nil_append, List.map_append, List.map_cons, List.map_nil]
  rw [show (stackAt2 sK2 0) = labA from by funext a b; simp [stackAt2, sK2, labA],
      show (stackAt2 sK2 1) = labA from by funext a b; simp [stackAt2, sK2, labA],
      eval_oW_labA]
  rfl

theorem stack_sW_1 : evaluate2 oW (stackAt2 sW 1) = 0 := by
  rw [evaluate2_eq_cut, (by decide : cut2 oW (stackAt2 sW 1) = [])]
  norm_num

theorem stack_sW_0 : evaluate2 oW (stackAt2 sW 0) = 1 := by
  rw [evaluate2_eq_cut, (by decide : cut2 oW (stackAt2 sW 0) = [(0, 0, 0)])]
  norm_num [oW]

theorem stack_sW_2 : evaluate2 oW (stackAt2 sW 2) = 0 := by
  rw [evaluate2_eq_cut, (by decide : cut2 oW (stackAt2 sW 2) = [])]
  norm_num

theorem es_oW_W : fuse2K_es oW 3 sW = [1, 0, 0] := by
  unfold fuse2K_es
  rw [List.range_succ, List.range_succ, List.range_succ, List.range_zero]
  simp only [List.nil_append, List.map_append, List.map_cons, List.map_nil,
    List.cons_append]
  rw [stack_sW_0, stack_sW_1, stack_sW_2]

theorem stack_sK3_0 : evaluate3 oW3 (stackAt3 sK3 0) = 1 := by
  rw [evaluate3_eq_cut, (by decide : cut3 oW3 (stackAt3 sK3 0) = [(0, 0, 0, 0)])]
  norm_num [oW3]

theorem stack_sK3_1 : evaluate3 oW3 (stackAt3 sK3 1) = 1 := by
  rw [evaluate3_eq_cut, (by decide : cut3 oW3 (stackAt3 sK3 1) = [(0, 0, 0, 0)])]
  norm_num [oW3]

theorem es_oW3_K3 : fuse3K_es oW3 2 sK3 = [1, 1] := by
  unfold fuse3K_es
  rw [List.range_succ, List.range_succ, List.range_zero]
  simp only [List.nil_append, List.map_append, List.map_cons, List.map_nil]
  rw [stack_sK3_0, stack_sK3_1]
  rfl

theorem stack_sW3_0 : evaluate3 oW3 (stackAt3 sW3 0) = 1 := by
  rw [evaluate3_eq_cut, (by decide : cut3 oW3 (stackAt3 sW3 0) = [(0, 0, 0, 0)])]
  norm_num [oW3]

theorem stack_sW3_1 : evaluate3 oW3 (stackAt3 sW3 1) = 0 := by
  rw [evaluate3_eq_cut, (by decide : cut3 oW3 (stackAt3 sW3 1) = [])]
  norm_num

theorem es_oW3_W3 : fuse3K_es oW3 2 sW3 = [1, 0] := by
  unfold fuse3K_es
  rw [List.range_succ, List.range_succ, List.range_zero]
  simp only [List.nil_append, List.map_append, List.map_cons, List.map_nil]
  rw [stack_sW3_0, stack_sW3_1]
  rfl

theorem best_oW_K2 : bestPair (fuse2K_es oW 2 sK2) = some (1, 0) := by
  rw [es_oW_K2]
  norm_num [bestPair, bestAux]

theorem best_oW_W : bestPair (fuse2K_es oW 3 sW) = some (0, 1) := by
  rw [es_oW_W]
  norm_num [bestPair, bestAux]

theorem best_oW3_K3 : bestPair (fuse3K_es oW3 2 sK3) = some (1, 0) := by
  rw [es_oW3_K3]
  norm_num [bestPair, bestAux]

theorem best_oW3_W3 : bestPair (fuse3K_es oW3 2 sW3) = some (0, 1) := by
  rw [es_oW3_W3]
  norm_num [bestPair, bestAux]

/-! ### Claim theorems -/

/-- C2: for every D in {2,3}, every objective and every labeling, `evaluate`
equals the sum over all grid positions `p` and offset indices `k` of
`weight(p,k)`, taken exactly when the neighbour `q = p + offset_k` lies inside
the grid bounds and the labels of `p` and `q` differ; out-of-bounds
neighbours contribute nothing (and, the model being total, raise no error). -/
theorem c2_energy_definition :
    (∀ (o : Obj2) (L : Nat → Nat → Nat),
      evaluate2 o L =
        ∑ p0 ∈ Finset.range o.s0, ∑ p1 ∈ Finset.range o.s1,
          ∑ k ∈ Finset.range o.nOff,
            if inb2 o p0 p1 k ∧ L p0 p1 ≠ L (qn0 o p0 k) (qn1 o p1 k) then
              o.w p0 p1 k
            else 0) ∧
    (∀ (o : Obj3) (L : Nat → Nat → Nat → Nat),
      evaluate3 o L =
        ∑ p0 ∈ Finset.range o.s0, ∑ p1 ∈ Finset.range o.s1,
          ∑ p2 ∈ Finset.range o.s2, ∑ k ∈ Finset.range o.nOff,
            if inb3 o p0 p1 p2 k ∧
                L p0 p1 p2 ≠ L (qm0 o p0 k) (qm1 o p1 k) (qm2 o p2 k) then
              o.w p0 p1 p2 k
            else 0) := by
  constructor
  · intro o L
    rw [evaluate2, triples2_sum]
    refine Finset.sum_congr rfl (fun p0 _ => Finset.sum_congr rfl (fun p1 _ =>
      Finset.sum_congr rfl (fun k _ => ?_)))
    by_cases h1 : inb2 o p0 p1 k
    · by_cases h2 : L p0 p1 ≠ L (qn0 o p0 k) (qn1 o p1 k) <;> simp [evalTerm2, h1, h2]
    · simp [evalTerm2, h1]
  · intro o L
    rw [evaluate3, quads3_sum]
    refine Finset.sum_congr rfl (fun p0 _ => Finset.sum_congr rfl (fun p1 _ =>
      Finset.sum_congr rfl (fun p2 _ => Finset.sum_congr rfl (fun k _ => ?_))))
    by_cases h1 : inb3 o p0 p1 p2 k
    · by_cases h2 : L p0 p1 p2 ≠ L (qm0 o p0 k) (qm1 o p1 k) (qm2 o p2 k) <;>
        simp [evalTerm3, h1, h2]
    · simp [evalTerm3, h1]

/-- C8: the energy is invariant under any relabeling that preserves which grid
positions share a label, in both 2D and 3D; label values carry no meaning
beyond equality. -/
theorem c8_relabeling_invariance :
    (∀ (o : Obj2) (L L' : Nat → Nat → Nat),
      (∀ p0 < o.s0, ∀ p1 < o.s1, ∀ q0 < o.s0, ∀ q1 < o.s1,
        (L p0 p1 = L q0 q1 ↔ L' p0 p1 = L' q0 q1)) →
      evaluate2 o L = evaluate2 o L') ∧
    (∀ (o : Obj3) (L L' : Nat → Nat → Nat → Nat),
      (∀ p0 < o.s0, ∀ p1 < o.s1, ∀ p2 < o.s2, ∀ q0 < o.s0, ∀ q1 < o.s1, ∀ q2 < o.s2,
        (L p0 p1 p2 = L q0 q1 q2 ↔ L' p0 p1 p2 = L' q0 q1 q2)) →
      evaluate3 o L = evaluate3 o L') := by
  constructor
  · intro o L L' h
    rw [evaluate2, evaluate2]
    apply sum_map_congr
    intro t ht
    obtain ⟨hp0, hp1, _⟩ := mem_triples2.mp ht
    by_cases h1 : inb2 o t.1 t.2.1 t.2.2
    · obtain ⟨ha, hb, hc, hd⟩ := h1
      have hq0 : qn0 o t.1 t.2.2 < o.s0 := by unfold qn0; omega
      have hq1 : qn1 o t.2.1 t.2.2 < o.s1 := by unfold qn1; omega
      have hiff := h t.1 hp0 t.2.1 hp1 (qn0 o t.1 t.2.2) hq0 (qn1 o t.2.1 t.2.2) hq1
      have h1' : inb2 o t.1 t.2.1 t.2.2 := ⟨ha, hb, hc, hd⟩
      by_cases h2 : L t.1 t.2.1 ≠ L (qn0 o t.1 t.2.2) (qn1 o t.2.1 t.2.2)
      · have h2' : L' t.1 t.2.1 ≠ L' (qn0 o t.1 t.2.2) (qn1 o t.2.1 t.2.2) :=
          fun he => h2 (hiff.mpr he)
        simp [evalTerm2, h1', h2, h2']
      · have h2' : ¬ L' t.1 t.2.1 ≠ L' (qn0 o t.1 t.2.2) (qn1 o t.2.1 t.2.2) :=
          fun he => he (hiff.mp (not_not.mp h2))
        simp [evalTerm2, h1', h2, h2']
    · simp [evalTerm2, h1]
  · intro o L L' h
    rw [evaluate3, evaluate3]
    apply sum_map_congr
    intro t ht
    obtain ⟨hp0, hp1, hp2, _⟩ := mem_quads3.mp ht
    by_cases h1 : inb3 o t.1 t.2.1 t.2.2.1 t.2.2.2
    · obtain ⟨ha, hb, hc, hd, he', hf⟩ := h1
      have hq0 : qm0 o t.1 t.2.2.2 < o.s0 := by unfold qm0; omega
      have hq1 : qm1 o t.2.1 t.2.2.2 < o.s1 := by unfold qm1; omega
      have hq2 : qm2 o t.2.2.1 t.2.2.2 < o.s2 := by unfold qm2; omega
      have hiff := h t.1 hp0 t.2.1 hp1 t.2.2.1 hp2 (qm0 o t.1 t.2.2.2) hq0
        (qm1 o t.2.1 t.2.2.2) hq1 (qm2 o t.2.2.1 t.2.2.2) hq2
      have h1' : inb3 o t.1 t.2.1 t.2.2.1 t.2.2.2 := ⟨ha, hb, hc, hd, he', hf⟩
      by_cases h2 : L t.1 t.2.1 t.2.2.1 ≠
          L (qm0 o t.1 t.2.2.2) (qm1 o t.2.1 t.2.2.2) (qm2 o t.2.2.1 t.2.2.2)
      · have h2' : L' t.1 t.2.1 t.2.2.1 ≠
            L' (qm0 o t.1 t.2.2.2) (qm1 o t.2.1 t.2.2.2) (qm2 o t.2.2.1 t.2.2.2) :=
          fun heq => h2 (hiff.mpr heq)
        simp [evalTerm3, h1', h2, h2']
      · have h2' : ¬ L' t.1 t.2.1 t.2.2.1 ≠
            L' (qm0 o t.1 t.2.2.2) (qm1 o t.2.1 t.2.2.2) (qm2 o t.2.2.1 t.2.2.2) :=
          fun heq => heq (hiff.mp (not_not.mp h2))
        simp [evalTerm3, h1', h2, h2']
    · simp [evalTerm3, h1]

/-- Witness for C8: on the 1×2 grid, [0, 1] and [5, 4] share the same
equality pattern and the same energy. -/
theorem c8_witness :
    evaluate2 oW (fun _ p1 => p1) = evaluate2 oW (fun _ p1 => 5 - p1) :=
  c8_relabeling_invariance.1 oW (fun _ p1 => p1) (fun _ p1 => 5 - p1) (by decide)

/-- C7 counterexample: with a 1×1 grid and offset (0,1) the single entry's
neighbour is out of bounds, and the returned tensor keeps whatever the
allocation held there — here `true` — instead of the claimed `false`. -/
theorem c7_edge_gt_oob_counterexample :
    ¬ (pixel_wise_lmc_edge_gt_2d 1 1 (fun _ _ => 0) 1 (fun _ => (0, 1))
        (fun _ _ _ => true) 0 0 0 = false) := by decide

/-- C7, amended: an entry of the ground-truth edge tensor whose neighbour
`p + offset_k` is in bounds is true exactly when the ground-truth labels at
`p` and `q` differ; an entry whose neighbour is out of bounds is left at the
allocation's initial (unspecified) contents instead of being forced to
false. -/
theorem c7_edge_gt_entries (s0 s1 : Nat) (gt : Nat → Nat → Nat) (nOff : Nat)
    (off : Nat → Int × Int) (uninit : Nat → Nat → Nat → Bool) (p0 p1 k : Nat)
    (hp0 : p0 < s0) (hp1 : p1 < s1) (hk : k < nOff) :
    ((0 ≤ (p0 : Int) + (off k).1 ∧ (p0 : Int) + (off k).1 < (s0 : Int) ∧
      0 ≤ (p1 : Int) + (off k).2 ∧ (p1 : Int) + (off k).2 < (s1 : Int)) →
      pixel_wise_lmc_edge_gt_2d s0 s1 gt nOff off uninit p0 p1 k
        = decide (gt p0 p1 ≠
            gt ((p0 : Int) + (off k).1).toNat ((p1 : Int) + (off k).2).toNat)) ∧
    (¬ (0 ≤ (p0 : Int) + (off k).1 ∧ (p0 : Int) + (off k).1 < (s0 : Int) ∧
        0 ≤ (p1 : Int) + (off k).2 ∧ (p1 : Int) + (off k).2 < (s1 : Int)) →
      pixel_wise_lmc_edge_gt_2d s0 s1 gt nOff off uninit p0 p1 k
        = uninit p0 p1 k) := by
  constructor
  · intro hq
    simp only [pixel_wise_lmc_edge_gt_2d]
    rw [if_pos ⟨hp0, hp1, hk, hq.1, hq.2.1, hq.2.2.1, hq.2.2.2⟩]
  · intro hq
    simp only [pixel_wise_lmc_edge_gt_2d]
    rw [if_neg (fun hc => hq ⟨hc.2.2.2.1, hc.2.2.2.2.1, hc.2.2.2.2.2.1, hc.2.2.2.2.2.2⟩)]

/-- Witness for C7: on a 1×2 grid with offset (0,1), the entry at (0,0,0)
has an in-bounds neighbour and reports the label difference, while the entry
at (0,1,0) has an out-of-bounds neighbour and keeps the initial contents. -/
theorem c7_witness :
    pixel_wise_lmc_edge_gt_2d 1 2 (fun _ p1 => p1) 1 (fun _ => (0, 1))
      (fun _ _ _ => true) 0 0 0
      = decide ((fun _ p1 => p1 : Nat → Nat → Nat) 0 0 ≠
          (fun _ p1 => p1 : Nat → Nat → Nat) ((0 : Int) + 0).toNat
            ((0 : Int) + 1).toNat) ∧
    pixel_wise_lmc_edge_gt_2d 1 2 (fun _ p1 => p1) 1 (fun _ => (0, 1))
      (fun _ _ _ => true) 0 1 0
      = (fun _ _ _ => true : Nat → Nat → Nat → Bool) 0 1 0 :=
  ⟨(c7_edge_gt_entries 1 2 (fun _ p1 => p1) 1 (fun _ => (0, 1))
      (fun _ _ _ => true) 0 0 0 (by decide) (by decide) (by decide)).1 (by decide),
   (c7_edge_gt_entries 1 2 (fun _ p1 => p1) 1 (fun _ => (0, 1))
      (fun _ _ _ => true) 0 1 0 (by decide) (by decide) (by decide)).2 (by decide)⟩

/-- C9: the claim requires the solver created inside `optimize` to be released
on every exit path; the source executes `delete solver` only after a
successful `solver->optimize`, so a solver whose optimize raises is never
deleted.  At a concrete failing solver the model returns the propagated error
with one solver created and zero deleted. -/
theorem c9_solver_leak_on_error :
    optimize2 oC9 (fun _ _ => Except.error ()) (fun _ _ => 0)
      = (Except.error (), 1, 0) := rfl

/-- C6 counterexample: fusing the identical pair need not return the energy of
the input — the contracted sub-problem is solved afresh, and a solver that
joins the two components of [0, 1] on the unit-weight 1×2 grid yields energy
0 instead of `evaluate(A) = 1`. -/
theorem c6_fuse_idempotent_counterexample :
    evaluate2 oW (fuse2 oW sol2Zero labA labA) ≠ evaluate2 oW labA := by
  have hsel : fuse2 oW sol2Zero labA labA
      = mapped2 oW (fuse2_ufd oW labA labA) (fuse2_ccL oW sol2Zero labA labA) := by
    unfold fuse2
    rw [if_pos (by rw [ccE_oW_zero_AA, eval_oW_labA]; norm_num)]
  have hres : evaluate2 oW (mapped2 oW (fuse2_ufd oW labA labA)
      (fuse2_ccL oW sol2Zero labA labA)) = 0 := by
    rw [evaluate2_eq_cut,
      (by decide : cut2 oW (mapped2 oW (fuse2_ufd oW labA labA)
        (fuse2_ccL oW sol2Zero labA labA)) = [])]
    norm_num
  rw [hsel, hres, eval_oW_labA]
  norm_num

/-- C6, amended: `fuse(A, A)` returns a labeling whose energy is at most
`evaluate(A)` (exactly `evaluate(A)` whenever the contracted solver offers no
strict improvement); the two-candidate fusion never regresses, but it may
strictly improve even on an identical pair. -/
theorem c6_fuse_self_energy_le (o : Obj2)
    (solver : Nat → List ((Nat × Nat) × (Nat × Nat × Nat)) → Nat → Nat)
    (A : Nat → Nat → Nat) :
    evaluate2 o (fuse2 o solver A A) ≤ evaluate2 o A := by
  by_cases h : fuse2_ccE o solver A A < min (evaluate2 o A) (evaluate2 o A)
  · unfold fuse2
    rw [if_pos h, eval_mapped2]
    have he : evalNodeLabels2 o (ccEntries2 o (fuse2_ufd o A A))
        (fuse2_ccL o solver A A) = fuse2_ccE o solver A A := rfl
    rw [he]
    exact le_of_lt (lt_of_lt_of_le h (min_le_left _ _))
  · unfold fuse2
    rw [if_neg h, if_neg (lt_irrefl (evaluate2 o A))]

/-- C5: in all four fuse forms the contracted solution is materialized into
the output exactly when its contracted-objective energy is strictly below the
minimum candidate energy; otherwise (in particular on an exact tie) an
original candidate array is copied through verbatim.  For the K-candidate
forms the scan value `bE` is shown to be the minimum candidate energy. -/
theorem c5_strict_improvement_selection :
    (∀ (o : Obj2) (solver : Nat → List ((Nat × Nat) × (Nat × Nat × Nat)) → Nat → Nat)
      (A B : Nat → Nat → Nat),
      (fuse2_ccE o solver A B < min (evaluate2 o A) (evaluate2 o B) →
        fuse2 o solver A B = mapped2 o (fuse2_ufd o A B) (fuse2_ccL o solver A B)) ∧
      (¬ fuse2_ccE o solver A B < min (evaluate2 o A) (evaluate2 o B) →
        fuse2 o solver A B = A ∨ fuse2 o solver A B = B)) ∧
    (∀ (o : Obj3)
      (solver : Nat → List ((Nat × Nat) × (Nat × Nat × Nat × Nat)) → Nat → Nat)
      (A B : Nat → Nat → Nat → Nat),
      (fuse3_ccE o solver A B < min (evaluate3 o A) (evaluate3 o B) →
        fuse3 o solver A B = mapped3 o (fuse3_ufd o A B) (fuse3_ccL o solver A B)) ∧
      (¬ fuse3_ccE o solver A B < min (evaluate3 o A) (evaluate3 o B) →
        fuse3 o solver A B = A ∨ fuse3 o solver A B = B)) ∧
    (∀ (o : Obj2) (solver : Nat → List ((Nat × Nat) × (Nat × Nat × Nat)) → Nat → Nat)
      (P : Nat) (S : Nat → Nat → Nat → Nat) (bE : ℚ) (bI : Nat),
      bestPair (fuse2K_es o P S) = some (bE, bI) →
      (∀ i < P, bE ≤ evaluate2 o (stackAt2 S i)) ∧
      (fuse2K_ccE o solver P S < bE →
        fuse2K o solver P S = mapped2 o (fuse2K_ufd o P S) (fuse2K_ccL o solver P S)) ∧
      (¬ fuse2K_ccE o solver P S < bE →
        fuse2K o solver P S = stackAt2 S bI ∧ evaluate2 o (stackAt2 S bI) = bE)) ∧
    (∀ (o : Obj3)
      (solver : Nat → List ((Nat × Nat) × (Nat × Nat × Nat × Nat)) → Nat → Nat)
      (P : Nat) (S : Nat → Nat → Nat → Nat → Nat) (bE : ℚ) (bI : Nat),
      bestPair (fuse3K_es o P S) = some (bE, bI) →
      (∀ i < P, bE ≤ evaluate3 o (stackAt3 S i)) ∧
      (fuse3K_ccE o solver P S < bE →
        fuse3K o solver P S = mapped3 o (fuse3K_ufd o P S) (fuse3K_ccL o solver P S)) ∧
      (¬ fuse3K_ccE o solver P S < bE →
        fuse3K o solver P S = stackAt3 S bI ∧ evaluate3 o (stackAt3 S bI) = bE)) := by
  refine ⟨fun o solver A B => ⟨fun h => ?_, fun h => ?_⟩,
    fun o solver A B => ⟨fun h => ?_, fun h => ?_⟩,
    fun o solver P S bE bI h => ?_, fun o solver P S bE bI h => ?_⟩
  · unfold fuse2; rw [if_pos h]
  · unfold fuse2
    rw [if_neg h]
    by_cases hab : evaluate2 o A < evaluate2 o B
    · exact Or.inl (by rw [if_pos hab])
    · exact Or.inr (by rw [if_neg hab])
  · unfold fuse3; rw [if_pos h]
  · unfold fuse3
    rw [if_neg h]
    by_cases hab : evaluate3 o A < evaluate3 o B
    · exact Or.inl (by rw [if_pos hab])
    · exact Or.inr (by rw [if_neg hab])
  · obtain ⟨hIP, hatt, hmin, _⟩ :=
      bestPair_range P (fun i => evaluate2 o (stackAt2 S i)) bE bI h
    refine ⟨hmin, fun hlt => ?_, fun hge => ?_⟩
    · simp only [fuse2K, h]
      rw [if_pos hlt]
    · simp only [fuse2K, h]
      rw [if_neg hge]
      exact ⟨rfl, hatt⟩
  · obtain ⟨hIP, hatt, hmin, _⟩ :=
      bestPair_range P (fun i => evaluate3 o (stackAt3 S i)) bE bI h
    refine ⟨hmin, fun hlt => ?_, fun hge => ?_⟩
    · simp only [fuse3K, h]
      rw [if_pos hlt]
    · simp only [fuse3K, h]
      rw [if_neg hge]
      exact ⟨rfl, hatt⟩

/-- Witness for C5: each of the eight selection branches exercised on small
concrete fusions (strict improvement and exact tie, two-candidate and
K-candidate, 2D and 3D). -/
theorem c5_witness :
    (fuse2 oW sol2Zero labA labA
      = mapped2 oW (fuse2_ufd oW labA labA) (fuse2_ccL oW sol2Zero labA labA)) ∧
    (fuse2 oW sol2Id labA labA = labA ∨ fuse2 oW sol2Id labA labA = labA) ∧
    (fuse3 oW3 sol3Zero labA3 labA3
      = mapped3 oW3 (fuse3_ufd oW3 labA3 labA3) (fuse3_ccL oW3 sol3Zero labA3 labA3)) ∧
    (fuse3 oW3 sol3Id labA3 labB3 = labA3 ∨ fuse3 oW3 sol3Id labA3 labB3 = labB3) ∧
    (fuse2K oW sol2Zero 2 sK2
      = mapped2 oW (fuse2K_ufd oW 2 sK2) (fuse2K_ccL oW sol2Zero 2 sK2)) ∧
    (fuse2K oW sol2Id 2 sK2 = stackAt2 sK2 0 ∧ evaluate2 oW (stackAt2 sK2 0) = 1) ∧
    (fuse3K oW3 sol3Zero 2 sK3
      = mapped3 oW3 (fuse3K_ufd oW3 2 sK3) (fuse3K_ccL oW3 sol3Zero 2 sK3)) ∧
    (fuse3K oW3 sol3Id 2 sW3 = stackAt3 sW3 1 ∧ evaluate3 oW3 (stackAt3 sW3 1) = 0) := by
  refine ⟨?_, ?_, ?_, ?_, ?_, ?_, ?_, ?_⟩
  · exact (c5_strict_improvement_selection.1 oW sol2Zero labA labA).1
      (by rw [ccE_oW_zero_AA, eval_oW_labA]; norm_num)
  · exact (c5_strict_improvement_selection.1 oW sol2Id labA labA).2
      (by rw [ccE_oW_id_AA, eval_oW_labA]; norm_num)
  · exact (c5_strict_improvement_selection.2.1 oW3 sol3Zero labA3 labA3).1
      (by rw [ccE_oW3_zero_AA, eval_oW3_labA3]; norm_num)
  · exact (c5_strict_improvement_selection.2.1 oW3 sol3Id labA3 labB3).2
      (by rw [ccE_oW3_id_AB3, eval_oW3_labA3, eval_oW3_labB3]; norm_num)
  · exact ((c5_strict_improvement_selection.2.2.1 oW sol2Zero 2 sK2 1 0)
      best_oW_K2).2.1 (by rw [ccE_oW_zero_K2]; norm_num)
  · exact ((c5_strict_improvement_selection.2.2.1 oW sol2Id 2 sK2 1 0)
      best_oW_K2).2.2 (by rw [ccE_oW_id_K2]; norm_num)
  · exact ((c5_strict_improvement_selection.2.2.2 oW3 sol3Zero 2 sK3 1 0)
      best_oW3_K3).2.1 (by rw [ccE_oW3_zero_K3]; norm_num)
  · exact ((c5_strict_improvement_selection.2.2.2 oW3 sol3Id 2 sW3 0 1)
      best_oW3_W3).2.2 (by rw [ccE_oW3_id_W3]; norm_num)

/-- C10: tie-breaking among the original candidates.  In the two-candidate
fuse (2D and 3D), when the contracted solution is not strictly better and the
two candidates have equal energy, the result is candidate `B` (the source's
`else` branch of `e_a < e_b`).  In the K-candidate fuse, when the contracted
solution is not strictly better, the result is the candidate at the scan
index: the lowest index attaining the minimal energy. -/
theorem c10_tie_breaking :
    (∀ (o : Obj2) (solver : Nat → List ((Nat × Nat) × (Nat × Nat × Nat)) → Nat → Nat)
      (A B : Nat → Nat → Nat),
      evaluate2 o A = evaluate2 o B →
      ¬ fuse2_ccE o solver A B < min (evaluate2 o A) (evaluate2 o B) →
      fuse2 o solver A B = B) ∧
    (∀ (o : Obj3)
      (solver : Nat → List ((Nat × Nat) × (Nat × Nat × Nat × Nat)) → Nat → Nat)
      (A B : Nat → Nat → Nat → Nat),
      evaluate3 o A = evaluate3 o B →
      ¬ fuse3_ccE o solver A B < min (evaluate3 o A) (evaluate3 o B) →
      fuse3 o solver A B = B) ∧
    (∀ (o : Obj2) (solver : Nat → List ((Nat × Nat) × (Nat × Nat × Nat)) → Nat → Nat)
      (P : Nat) (S : Nat → Nat → Nat → Nat) (bE : ℚ) (bI : Nat),
      bestPair (fuse2K_es o P S) = some (bE, bI) →
      ¬ fuse2K_ccE o solver P S < bE →
      fuse2K o solver P S = stackAt2 S bI ∧ bI < P ∧
      evaluate2 o (stackAt2 S bI) = bE ∧
      (∀ j < P, bE ≤ evaluate2 o (stackAt2 S j)) ∧
      (∀ j < bI, bE < evaluate2 o (stackAt2 S j))) ∧
    (∀ (o : Obj3)
      (solver : Nat → List ((Nat × Nat) × (Nat × Nat × Nat × Nat)) → Nat → Nat)
      (P : Nat) (S : Nat → Nat → Nat → Nat → Nat) (bE : ℚ) (bI : Nat),
      bestPair (fuse3K_es o P S) = some (bE, bI) →
      ¬ fuse3K_ccE o solver P S < bE →
      fuse3K o solver P S = stackAt3 S bI ∧ bI < P ∧
      evaluate3 o (stackAt3 S bI) = bE ∧
      (∀ j < P, bE ≤ evaluate3 o (stackAt3 S j)) ∧
      (∀ j < bI, bE < evaluate3 o (stackAt3 S j))) := by
  refine ⟨fun o solver A B heq hge => ?_, fun o solver A B heq hge => ?_,
    fun o solver P S bE bI h hge => ?_, fun o solver P S bE bI h hge => ?_⟩
  · unfold fuse2
    rw [if_neg hge, if_neg (by rw [heq]; exact lt_irrefl _)]
  · unfold fuse3
    rw [if_neg hge, if_neg (by rw [heq]; exact lt_irrefl _)]
  · obtain ⟨hIP, hatt, hmin, hfirst⟩ :=
      bestPair_range P (fun i => evaluate2 o (stackAt2 S i)) bE bI h
    refine ⟨?_, hIP, hatt, hmin, hfirst⟩
    simp only [fuse2K, h]
    rw [if_neg hge]
  · obtain ⟨hIP, hatt, hmin, hfirst⟩ :=
      bestPair_range P (fun i => evaluate3 o (stackAt3 S i)) bE bI h
    refine ⟨?_, hIP, hatt, hmin, hfirst⟩
    simp only [fuse3K, h]
    rw [if_neg hge]

/-- Witness for C10: a tied two-candidate fusion returning candidate `B` in 2D
and 3D, and K-candidate fusions returning the first minimal-energy candidate. -/
theorem c10_witness :
    (fuse2 oW sol2Id labA labB10 = labB10) ∧
    (fuse3 oW3 sol3Id labA3 labB3 = labB3) ∧
    (fuse2K oW sol2Id 3 sW = stackAt2 sW 1 ∧ 1 < 3 ∧
      evaluate2 oW (stackAt2 sW 1) = 0 ∧
      (∀ j < 3, (0 : ℚ) ≤ evaluate2 oW (stackAt2 sW j)) ∧
      (∀ j < 1, (0 : ℚ) < evaluate2 oW (stackAt2 sW j))) ∧
    (fuse3K oW3 sol3Id 2 sW3 = stackAt3 sW3 1 ∧ 1 < 2 ∧
      evaluate3 oW3 (stackAt3 sW3 1) = 0 ∧
      (∀ j < 2, (0 : ℚ) ≤ evaluate3 oW3 (stackAt3 sW3 j)) ∧
      (∀ j < 1, (0 : ℚ) < evaluate3 oW3 (stackAt3 sW3 j))) := by
  refine ⟨?_, ?_, ?_, ?_⟩
  · exact c10_tie_breaking.1 oW sol2Id labA labB10
      (by rw [eval_oW_labA, eval_oW_labB10])
      (by rw [ccE_oW_id_AB10, eval_oW_labA, eval_oW_labB10]; norm_num)
  · exact c10_tie_breaking.2.1 oW3 sol3Id labA3 labB3
      (by rw [eval_oW3_labA3, eval_oW3_labB3])
      (by rw [ccE_oW3_id_AB3, eval_oW3_labA3, eval_oW3_labB3]; norm_num)
  · exact c10_tie_breaking.2.2.1 oW sol2Id 3 sW 0 1 best_oW_W
      (by rw [ccE_oW_id_W]; norm_num)
  · exact c10_tie_breaking.2.2.2 oW3 sol3Id 2 sW3 0 1 best_oW3_W3
      (by rw [ccE_oW3_id_W3]; norm_num)

/-- C1: the non-regression guarantee fails in 3D as the code stands.  On the
1×1×3 objective `oC1` with both candidates [0,1,0] (energy 2), the misbuilt
3D lifted fill (`p2 < shape[1]` at part_002 line 1049) omits the weight-2
edge between components 1 and 2, so the solver's cut [0,0,1] scores 1 on the
contracted objective, wins the strict comparison, and is materialized — but
its true dense energy is 3 > 2. -/
theorem c1_nonregression_violated_in_3d :
    ¬ (evaluate3 oC1 (fuse3 oC1 solC1 labC1 labC1)
        ≤ min (evaluate3 oC1 labC1) (evaluate3 oC1 labC1)) := by
  have hA : evaluate3 oC1 labC1 = 2 := by
    rw [evaluate3_eq_cut,
      (by decide : cut3 oC1 labC1 = [(0, 0, 0, 0), (0, 0, 1, 0)])]
    norm_num [oC1]
  have hccE : fuse3_ccE oC1 solC1 labC1 labC1 = 1 := by
    unfold fuse3_ccE
    rw [(by decide : ccEntries3 oC1 (fuse3_ufd oC1 labC1 labC1)
      = [((0, 1), (0, 0, 0, 0)), ((0, 2), (0, 0, 0, 1))])]
    norm_num [evalNodeLabels3, fuse3_ccL, solC1, oC1]
  have hsel : fuse3 oC1 solC1 labC1 labC1
      = mapped3 oC1 (fuse3_ufd oC1 labC1 labC1) (fuse3_ccL oC1 solC1 labC1 labC1) := by
    unfold fuse3
    rw [if_pos (by rw [hccE, hA]; norm_num)]
  have hres : evaluate3 oC1 (mapped3 oC1 (fuse3_ufd oC1 labC1 labC1)
      (fuse3_ccL oC1 solC1 labC1 labC1)) = 3 := by
    rw [evaluate3_eq_cut,
      (by decide : cut3 oC1 (mapped3 oC1 (fuse3_ufd oC1 labC1 labC1)
        (fuse3_ccL oC1 solC1 labC1 labC1)) = [(0, 0, 0, 1), (0, 0, 1, 0)])]
    norm_num [oC1]
  rw [hsel, hres, hA]
  norm_num

/-- C3: the 3D K-candidate agreement merge does not merge a nearest-neighbour
pair on which every candidate agrees.  On a 1×3×2 grid with a single stacked
candidate, positions (0,0,0) and (0,0,1) are axis-2 neighbours carrying equal
labels, yet after `merge_ufd2` they remain in different sets, because the
axis-2 block reads the axis-1 neighbour's labels (part_002 lines 963-964). -/
theorem c3_agreement_merge_violated_in_3d :
    sC3 0 0 0 0 = sC3 0 0 1 0 ∧
    (merge_ufd2_3 1 3 2 1 sC3 (Ufd.reset 6)).find (node3 3 2 0 0 0) ≠
      (merge_ufd2_3 1 3 2 1 sC3 (Ufd.reset 6)).find (node3 3 2 0 0 1) := by decide

/-- C4: the contracted lifted objective is misbuilt in 3D.  On the 1×1×3
objective `oC4` with components {0}, {1}, {2}, the spec-side accumulated
lifted weight between components 1 and 2 is 2 (the in-bounds pair
(0,0,1)-(0,0,2)), but the build loop bounds `p2` by `shape[1] = 1`
(part_002 line 1049), never visits that pair, and leaves the built cost at
0. -/
theorem c4_contracted_build_violated_in_3d :
    specLiftedWeight3 oC4 uC4 1 2 = 2 ∧
    ccCost3 oC4 (ccEntries3 oC4 uC4) 1 2 = 0 := by
  constructor
  · unfold specLiftedWeight3
    rw [(by decide : specLiftCut3 oC4 uC4 1 2 = [(0, 0, 1, 0)])]
    norm_num [oC4]
  · rw [(by decide : ccEntries3 oC4 uC4 = [((0, 1), (0, 0, 0, 0))])]
    norm_num [ccCost3]

end PixelWiseLmc
